import Mathlib

/-!
Verification development for the image-forensics library.

This file gives a shallow embedding, in Lean 4, of the parts of the Rust
source that the specification claims talk about, and proves or refutes each
claim against that embedding.

Embedding conventions, used throughout:

* Rust u32 / usize values become Nat.  Coordinates and dimensions in this
  code base are small (pixel counts), so wrap-around of u32 arithmetic never
  triggers on reachable inputs and is not modelled.
* Rust f64 values become ℚ wherever the source only adds, multiplies,
  divides and compares (exact in f64 up to rounding that no claim depends
  on), and ℝ where a genuine square root is taken (Pearson correlation).
  Decimal constants of the source are written as the exact fractions they
  denote (0.3 becomes 3/10, and so on).
* Fallible Rust functions returning Result become Except Err.
* The error enum ForensicsError (src/src/error.rs) becomes Err below.
* GrayImage / RgbImage become structures carrying dimensions and a pixel
  function; analyzers never read out of bounds on the paths modelled here.
* Casting a non-negative f64 to u8 / u32 with the Rust as operator truncates
  toward zero (saturating at the bounds); for the expressions modelled here
  the values are within range, so the cast is a floor.  In particular
  (x as f64).sqrt() as u32 on a Nat x is Nat.sqrt x: f64 holds these
  integers exactly and the correctly rounded square root of numbers of this
  magnitude never rounds across an integer.
* Image maps and visualization images (drawing code) are not modelled: no
  claim quantifies over them.
-/

/-- Embeds SRegion (src/src/lib.rs lines 185-191): an axis-aligned rectangle
with u32 coordinates. -/
structure SRegion where
  x : Nat
  y : Nat
  width : Nat
  height : Nat
deriving DecidableEq, Repr

/-- Embeds ForensicsError (src/src/error.rs).  The image and io payloads are
dropped: no claim inspects them. -/
inductive Err where
  | imageLoad : Err
  | io : Err
  | invalidParameter : String → Err
  | analysisFailed : String → Err
  | unsupportedFormat : String → Err
  | metadataError : String → Err
  | invalidBlockSize : Err
  | imageTooSmall : Nat → Err
deriving DecidableEq, Repr

/-- Embeds ConfidenceLevel (src/src/detection/mod.rs lines 8-15). -/
inductive ConfidenceLevel where
  | none : ConfidenceLevel
  | low : ConfidenceLevel
  | medium : ConfidenceLevel
  | high : ConfidenceLevel
  | veryHigh : ConfidenceLevel
deriving DecidableEq, Repr

/-- Embeds ConfidenceLevel::from_score (src/src/detection/mod.rs lines
18-26): bucket a score by the thresholds 0.2, 0.4, 0.6, 0.8. -/
def ConfidenceLevel.fromScore (score : ℚ) : ConfidenceLevel :=
  if score < 1/5 then ConfidenceLevel.none
  else if score < 2/5 then ConfidenceLevel.low
  else if score < 3/5 then ConfidenceLevel.medium
  else if score < 4/5 then ConfidenceLevel.high
  else ConfidenceLevel.veryHigh

/-- Embeds ConfidenceLevel::to_score (src/src/detection/mod.rs lines
28-36). -/
def ConfidenceLevel.toScore : ConfidenceLevel → ℚ
  | ConfidenceLevel.none => 0
  | ConfidenceLevel.low => 3/10
  | ConfidenceLevel.medium => 1/2
  | ConfidenceLevel.high => 7/10
  | ConfidenceLevel.veryHigh => 9/10

/-- Embeds ManipulationType (src/src/detection/mod.rs lines 40-50). -/
inductive ManipulationType where
  | copyMove : ManipulationType
  | splicing : ManipulationType
  | retouching : ManipulationType
  | removal : ManipulationType
  | resizing : ManipulationType
  | rotation : ManipulationType
  | colorManipulation : ManipulationType
  | aiGenerated : ManipulationType
  | unknown : ManipulationType
deriving DecidableEq, Repr

/-- Embeds DetectedManipulation (src/src/detection/mod.rs lines 52-60). -/
structure DetectedManipulation where
  manipulation_type : ManipulationType
  region : SRegion
  confidence : ℚ
  confidence_level : ConfidenceLevel
  description : String
  evidence : List String
deriving DecidableEq, Repr

/-- Embeds DetectionResult (src/src/detection/mod.rs lines 62-70).  The
visualization image is not modelled; the summary string is modelled by the
data interpolated into it (manipulation count and score), since the claims
never inspect its text. -/
structure DetectionResult where
  manipulations : List DetectedManipulation
  overall_score : ℚ
  overall_confidence : ConfidenceLevel
  is_manipulated : Bool
  summaryData : Option (Nat × ℚ)

/-- Embeds DetectionResult::new (src/src/detection/mod.rs lines 73-82). -/
def DetectionResult.new : DetectionResult :=
  { manipulations := []
    overall_score := 0
    overall_confidence := ConfidenceLevel.none
    is_manipulated := false
    summaryData := Option.none }

/-- Embeds DetectionResult::recalculate_overall (src/src/detection/mod.rs
lines 89-112): empty list resets the derived fields and returns early
(leaving the summary unchanged); otherwise the overall score is the mean
confidence, the bucket is from_score of it, and is_manipulated compares it
with 0.3. -/
def DetectionResult.recalculateOverall (r : DetectionResult) : DetectionResult :=
  if r.manipulations = [] then
    { r with overall_score := 0, overall_confidence := ConfidenceLevel.none,
             is_manipulated := false }
  else
    let total : ℚ := (r.manipulations.map (fun m => m.confidence)).sum
    let score : ℚ := total / (r.manipulations.length : ℚ)
    { r with overall_score := score,
             overall_confidence := ConfidenceLevel.fromScore score,
             is_manipulated := decide ((3/10 : ℚ) < score),
             summaryData := some (r.manipulations.length, score) }

/-- Embeds DetectionResult::add_manipulation (src/src/detection/mod.rs lines
84-87): push then recalculate. -/
def DetectionResult.addManipulation (r : DetectionResult) (m : DetectedManipulation) : DetectionResult :=
  DetectionResult.recalculateOverall { r with manipulations := r.manipulations ++ [m] }

/-- The aggregation invariant of a DetectionResult, as claim C4 states it:
the overall score is the arithmetic mean of the confidences (0 when empty),
is_manipulated holds exactly when the score exceeds 0.3, and the bucket is
from_score of the score. -/
def WellAggregated (r : DetectionResult) : Prop :=
  r.overall_score =
    (if r.manipulations = [] then 0
     else ((r.manipulations.map (fun m => m.confidence)).sum / (r.manipulations.length : ℚ))) ∧
  (r.is_manipulated = true ↔ (3/10 : ℚ) < r.overall_score) ∧
  r.overall_confidence = ConfidenceLevel.fromScore r.overall_score

theorem wellAggregated_new : WellAggregated DetectionResult.new := by
  refine ⟨by simp [DetectionResult.new], ?_, ?_⟩
  · simp only [DetectionResult.new]
    constructor
    · intro h; cases h
    · intro h; norm_num at h
  · simp only [DetectionResult.new, ConfidenceLevel.fromScore]
    norm_num

theorem addManipulation_eq (r : DetectionResult) (m : DetectedManipulation) :
    r.addManipulation m =
      { manipulations := r.manipulations ++ [m]
        overall_score :=
          ((r.manipulations ++ [m]).map (fun m => m.confidence)).sum /
            ((r.manipulations ++ [m]).length : ℚ)
        overall_confidence :=
          ConfidenceLevel.fromScore
            (((r.manipulations ++ [m]).map (fun m => m.confidence)).sum /
              ((r.manipulations ++ [m]).length : ℚ))
        is_manipulated :=
          decide ((3/10 : ℚ) <
            ((r.manipulations ++ [m]).map (fun m => m.confidence)).sum /
              ((r.manipulations ++ [m]).length : ℚ))
        summaryData :=
          some ((r.manipulations ++ [m]).length,
            ((r.manipulations ++ [m]).map (fun m => m.confidence)).sum /
              ((r.manipulations ++ [m]).length : ℚ)) } := by
  unfold DetectionResult.addManipulation DetectionResult.recalculateOverall
  rw [if_neg (by simp)]

theorem wellAggregated_addManipulation (r : DetectionResult) (m : DetectedManipulation) :
    WellAggregated (r.addManipulation m) := by
  rw [addManipulation_eq]
  refine ⟨?_, ?_, rfl⟩
  · rw [if_neg (by simp)]
  · simp [decide_eq_true_iff]

theorem manipulations_addManipulation (r : DetectionResult) (m : DetectedManipulation) :
    (r.addManipulation m).manipulations = r.manipulations ++ [m] := by
  rw [addManipulation_eq]

theorem foldl_addManipulation_manipulations (ms : List DetectedManipulation) :
    ∀ r : DetectionResult,
      (ms.foldl (fun r m => r.addManipulation m) r).manipulations = r.manipulations ++ ms := by
  induction ms with
  | nil => intro r; simp
  | cons m rest ih =>
    intro r
    simp only [List.foldl_cons, ih, manipulations_addManipulation, List.append_assoc,
      List.singleton_append]

theorem foldl_addManipulation_wellAggregated (ms : List DetectedManipulation) :
    ∀ r : DetectionResult, WellAggregated r →
      WellAggregated (ms.foldl (fun r m => r.addManipulation m) r) := by
  induction ms with
  | nil => intro r h; exact h
  | cons m rest ih =>
    intro r _
    exact ih (r.addManipulation m) (wellAggregated_addManipulation r m)

/-- C4: for every DetectionResult obtained from DetectionResult::new by any
sequence of add_manipulation calls, overall_score is the arithmetic mean of
the confidences of manipulations (0 if the list is empty), is_manipulated
holds iff overall_score exceeds 0.3, and overall_confidence is the bucket of
overall_score under from_score (below 0.2 None, below 0.4 Low, below 0.6
Medium, below 0.8 High, else VeryHigh). -/
theorem detection_aggregation_invariant (ms : List DetectedManipulation) :
    (ms.foldl (fun r m => r.addManipulation m) DetectionResult.new).manipulations = ms ∧
    (ms.foldl (fun r m => r.addManipulation m) DetectionResult.new).overall_score =
      (if ms = [] then 0 else ((ms.map (fun m => m.confidence)).sum / (ms.length : ℚ))) ∧
    ((ms.foldl (fun r m => r.addManipulation m) DetectionResult.new).is_manipulated = true ↔
      (3/10 : ℚ) < (ms.foldl (fun r m => r.addManipulation m) DetectionResult.new).overall_score) ∧
    (ms.foldl (fun r m => r.addManipulation m) DetectionResult.new).overall_confidence =
      ConfidenceLevel.fromScore
        (ms.foldl (fun r m => r.addManipulation m) DetectionResult.new).overall_score := by
  have hm : (ms.foldl (fun r m => r.addManipulation m) DetectionResult.new).manipulations = ms := by
    simpa [DetectionResult.new] using foldl_addManipulation_manipulations ms DetectionResult.new
  have hw : WellAggregated (ms.foldl (fun r m => r.addManipulation m) DetectionResult.new) :=
    foldl_addManipulation_wellAggregated ms DetectionResult.new wellAggregated_new
  obtain ⟨h1, h2, h3⟩ := hw
  refine ⟨hm, ?_, h2, h3⟩
  rw [h1, hm]

/-- C10: bucketing the representative score of each confidence level
recovers the level: from_score of to_score is the identity on
ConfidenceLevel. -/
theorem confidenceLevel_fromScore_toScore :
    ∀ l : ConfidenceLevel, ConfidenceLevel.fromScore l.toScore = l := by
  intro l
  cases l <;> norm_num [ConfidenceLevel.fromScore, ConfidenceLevel.toScore]

/-- Embeds the configuration state of CopyMoveDetector
(src/src/analysis/copy_move.rs lines 10-15). -/
structure CopyMoveDetectorQ where
  block_size : Nat
  similarity_threshold : ℚ
  min_distance : Nat
  variance_threshold : ℚ
deriving DecidableEq, Repr

/-- Embeds CopyMoveDetector::new (src/src/analysis/copy_move.rs lines
26-39): the constructor rejects only a block size outside 4..=64; the
similarity threshold and minimum distance are stored unchecked. -/
def cmNew (block_size : Nat) (similarity_threshold : ℚ) (min_distance : Nat) :
    Except Err CopyMoveDetectorQ :=
  if block_size < 4 ∨ 64 < block_size then
    Except.error (Err.invalidParameter ("Block size must be between 4 and 64"))
  else
    Except.ok
      { block_size := block_size
        similarity_threshold := similarity_threshold
        min_distance := min_distance
        variance_threshold := 100 }

/-- C6 counterexample: the claim says CopyMoveDetector::new returns
InvalidParameter for every similarity_threshold outside the unit interval,
but new with threshold 2 succeeds. -/
theorem cmNew_accepts_out_of_range_threshold :
    cmNew 16 2 50 = Except.ok
      { block_size := 16, similarity_threshold := 2, min_distance := 50,
        variance_threshold := 100 } ∧
    ¬ ((0 : ℚ) ≤ 2 ∧ (2 : ℚ) ≤ 1) := by
  constructor
  · rfl
  · intro h
    exact absurd h.2 (by norm_num)

/-- C6 amended: CopyMoveDetector::new fails, with the InvalidParameter
error, exactly when block_size is outside 4..=64; the similarity threshold
is never validated. -/
theorem cmNew_validates_only_block_size (bs : Nat) (θ : ℚ) (md : Nat) :
    (cmNew bs θ md =
        Except.error (Err.invalidParameter ("Block size must be between 4 and 64")) ↔
      (bs < 4 ∨ 64 < bs)) ∧
    ((cmNew bs θ md).isOk = true ↔ (4 ≤ bs ∧ bs ≤ 64)) := by
  unfold cmNew
  by_cases h : bs < 4 ∨ 64 < bs
  · rw [if_pos h]
    constructor
    · exact ⟨fun _ => h, fun _ => rfl⟩
    · constructor
      · intro hk; simp [Except.isOk, Except.toBool] at hk
      · intro hk; omega
  · rw [if_neg h]
    constructor
    · constructor
      · intro hk; cases hk
      · intro hk; exact absurd hk h
    · exact ⟨fun _ => by omega, fun _ => rfl⟩

/-- Embeds u32::midpoint as used at src/src/analysis/noise.rs line 157 and
src/src/detection/tampering.rs line 208: the floor of the average. -/
def u32midpoint (a b : Nat) : Nat := (a + b) / 2

/-- Embeds the iteration (0..n).step_by(step) of the Rust block loops: the
multiples of step below n, in increasing order. -/
def stepBy (n step : Nat) : List Nat :=
  (List.range n).filter (fun i => i % step = 0)

/-- A grayscale image: dimensions plus a pixel function (u8 values as
Nat). -/
structure GrayImage where
  width : Nat
  height : Nat
  pix : Nat → Nat → Nat

/-- Embeds NoiseAnalyzer::find_anomlaies (src/src/analysis/noise.rs lines
127-165).  Walks the block grid of the local-variance map, marks a block
anomalous when its mean falls outside [global/sensitivity,
global*sensitivity], and returns the anomalous regions together with the
inconsistency score.  The emitted region clamps its width with min but its
height with u32::midpoint, exactly as the source does. -/
def noiseFindAnomalies (block_size : Nat) (sensitivity : ℚ) (vmap : GrayImage)
    (globalNoise : ℚ) : List SRegion × ℚ :=
  let thresholdHigh := globalNoise * sensitivity
  let thresholdLow := globalNoise / sensitivity
  let blocks :=
    (stepBy vmap.height block_size).flatMap (fun b_y =>
      (stepBy vmap.width block_size).map (fun b_x => (b_x, b_y)))
  let regions := blocks.filterMap (fun p =>
    let vals := (List.range (min (p.2 + block_size) vmap.height - p.2)).flatMap (fun dy =>
      (List.range (min (p.1 + block_size) vmap.width - p.1)).map (fun dx =>
        vmap.pix (p.1 + dx) (p.2 + dy)))
    let blockSum : ℚ := (vals.map (fun v => (v : ℚ))).sum
    let blockMean : ℚ := blockSum / (vals.length : ℚ)
    if thresholdHigh < blockMean ∨ blockMean < thresholdLow then
      some { x := p.1, y := p.2,
             width := min block_size (vmap.width - p.1),
             height := u32midpoint block_size (vmap.height - p.2) }
    else none)
  (regions, (regions.length : ℚ) / (blocks.length : ℚ))

/-- Embeds BenfordAnalyzer::merge_two_regions
(src/src/analysis/benford_analysis.rs lines 313-325).  The lower edge y2
takes a.y + a.width on the left argument (the source uses the width field
where the height belongs, while the right argument uses b.height). -/
def benfordMergeTwoRegions (a b : SRegion) : SRegion :=
  { x := min a.x b.x
    y := min a.y b.y
    width := max (a.x + a.width) (b.x + b.width) - min a.x b.x
    height := max (a.y + a.width) (b.y + b.height) - min a.y b.y }

/-- C1: the claim says every emitted region satisfies x+w ≤ W, y+h ≤ H,
w > 0, h > 0.  The noise analyzer block walk violates it: on a 4x5 all-zero
local-variance map with estimated noise 2 (block size 4, sensitivity 2) the
bottom block produces the region (0,4,4,2) whose lower edge 4+2 = 6 exceeds
the height 5, because the height is clamped with u32::midpoint instead of
min.  Independently, Benford merge_two_regions maps the in-bounds regions
(0,0,32,8) and (0,0,8,8) of an image of height 8 to (0,0,32,32), whose lower
edge 32 exceeds the height 8, because it reads the width field where the
height belongs. -/
theorem emitted_regions_escape_image_bounds :
    ((noiseFindAnomalies 4 2 { width := 4, height := 5, pix := fun _ _ => 0 } 2).1 =
      [{ x := 0, y := 0, width := 4, height := 4 },
       { x := 0, y := 4, width := 4, height := 2 }] ∧
     5 < 4 + 2) ∧
    (benfordMergeTwoRegions { x := 0, y := 0, width := 32, height := 8 }
        { x := 0, y := 0, width := 8, height := 8 } =
      { x := 0, y := 0, width := 32, height := 32 } ∧
     8 < 0 + 32) := by
  refine ⟨⟨?_, by norm_num⟩, rfl, by norm_num⟩
  have hz : ∀ n : Nat, ((List.replicate n (0:ℕ)).flatMap fun a => [((a:ℚ))]).sum = 0 := by
    intro n
    induction n with
    | zero => simp
    | succ k ih => simp [List.replicate_succ, ih]
  norm_num [noiseFindAnomalies, stepBy, u32midpoint, List.range_succ, List.filterMap_cons,
    List.sum_replicate, List.flatMap_cons, List.flatMap_nil, hz]

/-- Embeds ElaAnalyzer::regions_adjacent (src/src/analysis/ela.rs lines
173-180): two regions are adjacent when they are not strictly separated by
more than the gap of 8 pixels in either axis. -/
def elaRegionsAdjacent (a b : SRegion) : Bool :=
  let gap := 8
  !(decide (a.x + a.width + gap < b.x) || decide (b.x + b.width + gap < a.x) ||
    decide (a.y + a.height + gap < b.y) || decide (b.y + b.height + gap < a.y))

/-- Embeds ElaAnalyzer::merge_two_regions (src/src/analysis/ela.rs lines
182-194): the axis-aligned bounding box. -/
def elaMergeTwoRegions (a b : SRegion) : SRegion :=
  { x := min a.x b.x
    y := min a.y b.y
    width := max (a.x + a.width) (b.x + b.width) - min a.x b.x
    height := max (a.y + a.height) (b.y + b.height) - min a.y b.y }

/-- One pass of the inner j-loop of ElaAnalyzer::merge_adjacent_regions
(src/src/analysis/ela.rs lines 150-160): scan the unused regions in order,
absorbing each one adjacent to the current cluster (the cluster grows as the
scan proceeds, exactly as in the source).  Returns the grown cluster, the
regions still unused, and whether anything was absorbed. -/
def elaSweep (current : SRegion) : List SRegion → SRegion × List SRegion × Bool
  | [] => (current, [], false)
  | r :: rest =>
    if elaRegionsAdjacent current r then
      let s := elaSweep (elaMergeTwoRegions current r) rest
      (s.1, s.2.1, true)
    else
      let s := elaSweep current rest
      (s.1, r :: s.2.1, s.2.2)

/-- The loop at src/src/analysis/ela.rs lines 148-165: repeat sweeps until a
sweep absorbs nothing.  Each productive sweep strictly shrinks the unused
list, so a fuel of one more than its length always reaches quiescence; the
callers pass exactly that. -/
def elaCluster (fuel : Nat) (current : SRegion) (unused : List SRegion) :
    SRegion × List SRegion :=
  match fuel with
  | 0 => (current, unused)
  | fuel + 1 =>
    let s := elaSweep current unused
    if s.2.2 then elaCluster fuel s.1 s.2.1 else (s.1, s.2.1)

/-- The outer i-loop of ElaAnalyzer::merge_adjacent_regions: take the first
unused region as a seed, grow its cluster to quiescence, push it, and
continue with the remaining unused regions.  A finished cluster is never
compared with clusters formed later, exactly as in the source. -/
def elaMergeLoop (fuel : Nat) (regions : List SRegion) : List SRegion :=
  match fuel, regions with
  | _, [] => []
  | 0, l => l
  | fuel + 1, r :: rest =>
    let c := elaCluster (rest.length + 1) r rest
    c.1 :: elaMergeLoop fuel c.2

/-- Embeds ElaAnalyzer::merge_adjacent_regions (src/src/analysis/ela.rs
lines 132-171). -/
def elaMergeAdjacentRegions (regions : List SRegion) : List SRegion :=
  elaMergeLoop regions.length regions

/-- C9: the claim says the merger is a fixpoint operation (applying it twice
equals applying it once) and that the final set does not depend on the merge
order.  The source violates both: on the three regions A = (0,0,16,16),
B = (0,25,41,16), C = (25,0,16,17) with gap 8, A is adjacent to neither B
nor C, but the bounding box of B and C is adjacent to A.  Since the cluster
seeded at A is pushed before B and C merge, the output [A, (0,0,41,41)]
still contains an adjacent pair, a second application merges it, and listing
A last instead of first changes the result. -/
theorem elaMerge_not_idempotent_and_order_dependent :
    elaMergeAdjacentRegions
        [{ x := 0, y := 0, width := 16, height := 16 },
         { x := 0, y := 25, width := 41, height := 16 },
         { x := 25, y := 0, width := 16, height := 17 }] =
      [{ x := 0, y := 0, width := 16, height := 16 },
       { x := 0, y := 0, width := 41, height := 41 }] ∧
    elaMergeAdjacentRegions (elaMergeAdjacentRegions
        [{ x := 0, y := 0, width := 16, height := 16 },
         { x := 0, y := 25, width := 41, height := 16 },
         { x := 25, y := 0, width := 16, height := 17 }]) =
      [{ x := 0, y := 0, width := 41, height := 41 }] ∧
    elaMergeAdjacentRegions
        [{ x := 0, y := 25, width := 41, height := 16 },
         { x := 25, y := 0, width := 16, height := 17 },
         { x := 0, y := 0, width := 16, height := 16 }] =
      [{ x := 0, y := 0, width := 41, height := 41 }] := by
  decide

/-- Embeds SplicingDetector::regions_overlap (src/src/detection/splicing.rs
lines 300-305): non-empty intersection. -/
def splRegionsOverlap (a b : SRegion) : Bool :=
  !(decide (a.x + a.width ≤ b.x) || decide (b.x + b.width ≤ a.x) ||
    decide (a.y + a.height ≤ b.y) || decide (b.y + b.height ≤ a.y))

/-- Embeds SplicingDetector::merge_regions (src/src/detection/splicing.rs
lines 354-366): the axis-aligned bounding box. -/
def splMergeRegions (a b : SRegion) : SRegion :=
  { x := min a.x b.x
    y := min a.y b.y
    width := max (a.x + a.width) (b.x + b.width) - min a.x b.x
    height := max (a.y + a.height) (b.y + b.height) - min a.y b.y }

/-- Embeds one of the three corroboration loops inside
SplicingDetector::combine_analyses (src/src/detection/splicing.rs lines
271-290): for every region of the list overlapping the color region, add
0.25 to the score and one to the evidence count. -/
def corroborate (cr : SRegion) (l : List SRegion) (acc : ℚ × Nat) : ℚ × Nat :=
  l.foldl (fun acc r =>
    if splRegionsOverlap cr r then (acc.1 + 1/4, acc.2 + 1) else acc) acc

/-- One pass of the inner j-loop of
SplicingDetector::merge_overlapping_detections
(src/src/detection/splicing.rs lines 326-344): scan the unused detections in
order, absorbing each one whose region overlaps the current cluster (the
cluster region grows and its score takes the maximum as the scan
proceeds). -/
def splSweep (current : SRegion × ℚ) :
    List (SRegion × ℚ) → (SRegion × ℚ) × List (SRegion × ℚ) × Bool
  | [] => (current, [], false)
  | d :: rest =>
    if splRegionsOverlap current.1 d.1 then
      let s := splSweep (splMergeRegions current.1 d.1, max current.2 d.2) rest
      (s.1, s.2.1, true)
    else
      let s := splSweep current rest
      (s.1, d :: s.2.1, s.2.2)

/-- The loop-until-quiescent of merge_overlapping_detections; each
productive sweep strictly shrinks the unused list, so a fuel of one more
than its length always suffices and the callers pass exactly that. -/
def splCluster (fuel : Nat) (current : SRegion × ℚ) (unused : List (SRegion × ℚ)) :
    (SRegion × ℚ) × List (SRegion × ℚ) :=
  match fuel with
  | 0 => (current, unused)
  | fuel + 1 =>
    let s := splSweep current unused
    if s.2.2 then splCluster fuel s.1 s.2.1 else (s.1, s.2.1)

/-- The outer i-loop of merge_overlapping_detections: seed a cluster at the
first unused detection, grow it to quiescence, keep it when its area reaches
min_region_size, and continue with the rest. -/
def splMergeLoop (minRegionSize : Nat) (fuel : Nat) (detections : List (SRegion × ℚ)) :
    List (SRegion × ℚ) :=
  match fuel, detections with
  | _, [] => []
  | 0, l => l
  | fuel + 1, d :: rest =>
    let c := splCluster (rest.length + 1) d rest
    (if minRegionSize ≤ c.1.1.width * c.1.1.height then [c.1] else []) ++
      splMergeLoop minRegionSize fuel c.2

/-- Embeds SplicingDetector::merge_overlapping_detections
(src/src/detection/splicing.rs lines 307-352): stable sort by descending
score (Rust sort_by with the reversed comparator is stable), then the greedy
cluster loop. -/
def mergeOverlappingDetections (minRegionSize : Nat) (detections : List (SRegion × ℚ)) :
    List (SRegion × ℚ) :=
  splMergeLoop minRegionSize detections.length
    (detections.mergeSort (fun a b => decide (b.2 ≤ a.2)))

/-- Embeds SplicingDetector::combine_analyses (src/src/detection/splicing.rs
lines 258-298): every color region starts at score 0.25 with evidence count
1, gains 0.25 and one count per overlapping edge, noise and ELA region (with
multiplicity), survives when the count reaches 2, and the survivors are
merged. -/
def combineAnalyses (minRegionSize : Nat) (color edge noise ela : List SRegion) :
    List (SRegion × ℚ) :=
  let combined := color.foldr (fun cr acc =>
    let s := corroborate cr ela (corroborate cr noise (corroborate cr edge (1/4, 1)))
    if 2 ≤ s.2 then (cr, s.1) :: acc else acc) []
  mergeOverlappingDetections minRegionSize combined

/-- C2 counterexample: the claim says each splicing confidence (0.25 base
plus 0.25 per overlapping corroborating region) lies in [0,1], but the
additions carry multiplicity: a 16x16 color block overlapping one edge
region and three noise regions (heights as produced by the noise block walk
of a 100-pixel-high image) is emitted with confidence 1.25. -/
theorem splicing_confidence_exceeds_one :
    combineAnalyses 100
        [{ x := 0, y := 32, width := 16, height := 16 }]
        [{ x := 0, y := 32, width := 16, height := 16 }]
        [{ x := 0, y := 0, width := 16, height := 58 },
         { x := 0, y := 16, width := 16, height := 50 },
         { x := 0, y := 32, width := 16, height := 42 }]
        [] =
      [({ x := 0, y := 32, width := 16, height := 16 }, 5/4)] ∧
    (1 : ℚ) < 5/4 := by
  constructor
  · norm_num [combineAnalyses, corroborate, splRegionsOverlap, mergeOverlappingDetections,
      List.mergeSort_singleton, splMergeLoop, splCluster, splSweep]
  · norm_num

/-- Embeds MatchPair (src/src/lib.rs lines 178-183). -/
structure MatchPairQ where
  source : SRegion
  target : SRegion
  similarity : ℚ
deriving DecidableEq, Repr

/-- Embeds CopyMoveDetector::regions_overlap (src/src/analysis/copy_move.rs
lines 248-253). -/
def cmRegionsOverlap (a b : SRegion) : Bool :=
  (decide (a.x < b.x + b.width) && decide (b.x < a.x + a.width)) &&
  (decide (a.y < b.y + b.height) && decide (b.y < a.y + a.height))

/-- The overlap test of CopyMoveDetector::filter_matches
(src/src/analysis/copy_move.rs lines 233-238): a candidate is rejected when
either of its regions overlaps either region of an already kept match. -/
def cmMatchOverlaps (m e : MatchPairQ) : Bool :=
  cmRegionsOverlap m.source e.source || cmRegionsOverlap m.target e.source ||
  cmRegionsOverlap m.source e.target || cmRegionsOverlap m.target e.target

/-- Embeds CopyMoveDetector::filter_matches (src/src/analysis/copy_move.rs
lines 227-246): stable sort by descending similarity only (Rust sort_by is
stable and the comparator reads just the similarity field), then greedily
keep a match when it overlaps no kept match. -/
def cmFilterMatches (ms : List MatchPairQ) : List MatchPairQ :=
  let sorted := ms.mergeSort (fun a b => decide (b.similarity ≤ a.similarity))
  sorted.foldl (fun filtered m =>
    if filtered.any (fun e => cmMatchOverlaps m e) then filtered
    else filtered ++ [m]) []

/-- C5: the claim says candidate matches are ordered by the key (-similarity,
source.y, source.x, target.y, target.x) before filtering, so that ties in
similarity cannot make the kept set depend on hash-map iteration order.  The
source sorts by similarity alone, so two overlapping candidates with equal
similarity are kept or dropped according to the order in which the hash-map
iteration produced them: the filter output differs between the two orders of
the same two candidates. -/
theorem cmFilterMatches_depends_on_candidate_order :
    cmFilterMatches
        [{ source := { x := 0, y := 0, width := 16, height := 16 },
           target := { x := 100, y := 0, width := 16, height := 16 }, similarity := 1 },
         { source := { x := 8, y := 0, width := 16, height := 16 },
           target := { x := 108, y := 0, width := 16, height := 16 }, similarity := 1 }] =
      [{ source := { x := 0, y := 0, width := 16, height := 16 },
         target := { x := 100, y := 0, width := 16, height := 16 }, similarity := 1 }] ∧
    cmFilterMatches
        [{ source := { x := 8, y := 0, width := 16, height := 16 },
           target := { x := 108, y := 0, width := 16, height := 16 }, similarity := 1 },
         { source := { x := 0, y := 0, width := 16, height := 16 },
           target := { x := 100, y := 0, width := 16, height := 16 }, similarity := 1 }] =
      [{ source := { x := 8, y := 0, width := 16, height := 16 },
         target := { x := 108, y := 0, width := 16, height := 16 }, similarity := 1 }] := by
  constructor <;>
  · unfold cmFilterMatches
    rw [List.mergeSort_of_sorted (by simp)]
    norm_num [cmMatchOverlaps, cmRegionsOverlap]

/-- Embeds CopyMoveDetector::calculate_similarity
(src/src/analysis/copy_move.rs lines 199-225) over ℝ: zero on length
mismatch or empty input, otherwise the Pearson correlation of the two
vectors, zeroed when the denominator is below 1e-10 and clamped below at
0. -/
noncomputable def calculateSimilarity (c1 c2 : List ℝ) : ℝ :=
  if c1.length ≠ c2.length ∨ c1.isEmpty then 0
  else
    let mean1 := c1.sum / (c1.length : ℝ)
    let mean2 := c2.sum / (c2.length : ℝ)
    let num := (List.zipWith (fun a b => (a - mean1) * (b - mean2)) c1 c2).sum
    let den1 := (List.zipWith (fun a _ => (a - mean1) * (a - mean1)) c1 c2).sum
    let den2 := (List.zipWith (fun _ b => (b - mean2) * (b - mean2)) c1 c2).sum
    let den := Real.sqrt (den1 * den2)
    if den < 1 / 10 ^ 10 then 0 else max (num / den) 0

theorem zipWith_sum_eq_range (f : ℝ → ℝ → ℝ) :
    ∀ (l1 l2 : List ℝ), l1.length = l2.length →
      (List.zipWith f l1 l2).sum =
        ∑ i in Finset.range l1.length, f (l1.getD i 0) (l2.getD i 0) := by
  intro l1
  induction l1 with
  | nil => intro l2 _; simp
  | cons a t ih =>
    intro l2 h
    cases l2 with
    | nil => simp at h
    | cons b t2 =>
      simp only [List.zipWith_cons_cons, List.sum_cons, List.length_cons]
      rw [Finset.sum_range_succ']
      simp only [List.getD_cons_succ, List.getD_cons_zero]
      rw [ih t2 (by simpa using h)]
      ring

theorem calculateSimilarity_mem_unit (c1 c2 : List ℝ) :
    0 ≤ calculateSimilarity c1 c2 ∧ calculateSimilarity c1 c2 ≤ 1 := by
  unfold calculateSimilarity
  by_cases h0 : c1.length ≠ c2.length ∨ c1.isEmpty
  · rw [if_pos h0]
    norm_num
  · rw [if_neg h0]
    push_neg at h0
    obtain ⟨hlen, _⟩ := h0
    set m1 := c1.sum / (c1.length : ℝ) with hm1
    set m2 := c2.sum / (c2.length : ℝ) with hm2
    set num := (List.zipWith (fun a b => (a - m1) * (b - m2)) c1 c2).sum with hnum
    set den1 := (List.zipWith (fun a _ => (a - m1) * (a - m1)) c1 c2).sum with hden1
    set den2 := (List.zipWith (fun _ b => (b - m2) * (b - m2)) c1 c2).sum with hden2
    by_cases hden : Real.sqrt (den1 * den2) < 1 / 10 ^ 10
    · rw [if_pos hden]
      norm_num
    · rw [if_neg hden]
      push_neg at hden
      have hpos : 0 < Real.sqrt (den1 * den2) :=
        lt_of_lt_of_le (by norm_num) hden
      constructor
      · exact le_max_right _ _
      · refine max_le ?_ (by norm_num)
        rw [div_le_one hpos]
        have e1 : num = ∑ i in Finset.range c1.length,
            (c1.getD i 0 - m1) * (c2.getD i 0 - m2) := by
          rw [hnum, zipWith_sum_eq_range _ c1 c2 hlen]
        have e2 : den1 = ∑ i in Finset.range c1.length, (c1.getD i 0 - m1) ^ 2 := by
          rw [hden1, zipWith_sum_eq_range _ c1 c2 hlen]
          exact Finset.sum_congr rfl fun i _ => (pow_two _).symm
        have e3 : den2 = ∑ i in Finset.range c1.length, (c2.getD i 0 - m2) ^ 2 := by
          rw [hden2, zipWith_sum_eq_range _ c1 c2 hlen]
          exact Finset.sum_congr rfl fun i _ => (pow_two _).symm
        calc num = ∑ i in Finset.range c1.length,
              (c1.getD i 0 - m1) * (c2.getD i 0 - m2) := e1
          _ ≤ Real.sqrt (∑ i in Finset.range c1.length, (c1.getD i 0 - m1) ^ 2) *
              Real.sqrt (∑ i in Finset.range c1.length, (c2.getD i 0 - m2) ^ 2) :=
                Real.sum_mul_le_sqrt_mul_sqrt _ _ _
          _ = Real.sqrt (den1 * den2) := by
                rw [e2, e3, ← Real.sqrt_mul (Finset.sum_nonneg fun i _ => sq_nonneg _)]

theorem corroborate_cons (cr r : SRegion) (rest : List SRegion) (acc : ℚ × Nat) :
    corroborate cr (r :: rest) acc =
      corroborate cr rest
        (if splRegionsOverlap cr r then (acc.1 + 1/4, acc.2 + 1) else acc) := by
  unfold corroborate
  rw [List.foldl_cons]

theorem corroborate_quarter (cr : SRegion) :
    ∀ (l : List SRegion) (acc : ℚ × Nat), acc.1 = (acc.2 : ℚ)/4 →
      (corroborate cr l acc).1 = ((corroborate cr l acc).2 : ℚ)/4 := by
  intro l
  induction l with
  | nil => intro acc h; simpa [corroborate] using h
  | cons r rest ih =>
    intro acc h
    rw [corroborate_cons]
    by_cases hov : splRegionsOverlap cr r
    · rw [if_pos hov]
      refine ih _ ?_
      push_cast
      rw [h]
      ring
    · rw [if_neg hov]
      exact ih _ h

theorem corroborate_count_mono (cr : SRegion) :
    ∀ (l : List SRegion) (acc : ℚ × Nat), acc.2 ≤ (corroborate cr l acc).2 := by
  intro l
  induction l with
  | nil => intro acc; simp [corroborate]
  | cons r rest ih =>
    intro acc
    rw [corroborate_cons]
    by_cases hov : splRegionsOverlap cr r
    · rw [if_pos hov]
      exact le_trans (Nat.le_succ acc.2) (ih (acc.1 + 1/4, acc.2 + 1))
    · rw [if_neg hov]
      exact ih acc

theorem splSweep_bound (c : ℚ) :
    ∀ (l : List (SRegion × ℚ)) (cur : SRegion × ℚ), c ≤ cur.2 → (∀ p ∈ l, c ≤ p.2) →
      c ≤ (splSweep cur l).1.2 ∧ ∀ p ∈ (splSweep cur l).2.1, c ≤ p.2 := by
  intro l
  induction l with
  | nil =>
    intro cur hc _
    exact ⟨hc, by simp [splSweep]⟩
  | cons d rest ih =>
    intro cur hc hl
    by_cases hov : splRegionsOverlap cur.1 d.1
    · simp only [splSweep, hov, if_true]
      exact ih (splMergeRegions cur.1 d.1, max cur.2 d.2)
        (le_trans hc (le_max_left _ _)) (fun p hp => hl p (List.mem_cons_of_mem _ hp))
    · simp only [splSweep, hov, Bool.false_eq_true, if_false]
      have h := ih cur hc (fun p hp => hl p (List.mem_cons_of_mem _ hp))
      refine ⟨h.1, fun p hp => ?_⟩
      rcases List.mem_cons.mp hp with h1 | h1
      · subst h1; exact hl p (List.mem_cons_self _ _)
      · exact h.2 p h1

theorem splCluster_bound (c : ℚ) :
    ∀ (fuel : Nat) (cur : SRegion × ℚ) (unused : List (SRegion × ℚ)),
      c ≤ cur.2 → (∀ p ∈ unused, c ≤ p.2) →
      c ≤ (splCluster fuel cur unused).1.2 ∧ ∀ p ∈ (splCluster fuel cur unused).2, c ≤ p.2 := by
  intro fuel
  induction fuel with
  | zero => intro cur unused hc hl; exact ⟨hc, hl⟩
  | succ f ih =>
    intro cur unused hc hl
    have hs := splSweep_bound c unused cur hc hl
    simp only [splCluster]
    by_cases hfound : (splSweep cur unused).2.2
    · rw [if_pos hfound]
      exact ih _ _ hs.1 hs.2
    · rw [if_neg hfound]
      exact hs

theorem splMergeLoop_bound (c : ℚ) (minSize : Nat) :
    ∀ (fuel : Nat) (l : List (SRegion × ℚ)), (∀ p ∈ l, c ≤ p.2) →
      ∀ q ∈ splMergeLoop minSize fuel l, c ≤ q.2 := by
  intro fuel
  induction fuel with
  | zero =>
    intro l hl q hq
    cases l with
    | nil => simp [splMergeLoop] at hq
    | cons d rest => exact hl q hq
  | succ f ih =>
    intro l hl q hq
    cases l with
    | nil => simp [splMergeLoop] at hq
    | cons d rest =>
      have hcl := splCluster_bound c (rest.length + 1) d rest
        (hl d (List.mem_cons_self _ _)) (fun p hp => hl p (List.mem_cons_of_mem _ hp))
      simp only [splMergeLoop] at hq
      rcases List.mem_append.mp hq with h1 | h2
      · by_cases harea :
          minSize ≤ (splCluster (rest.length + 1) d rest).1.1.width *
            (splCluster (rest.length + 1) d rest).1.1.height
        · rw [if_pos harea] at h1
          rcases List.mem_singleton.mp h1 with h
          rw [h]
          exact hcl.1
        · rw [if_neg harea] at h1
          simp at h1
      · exact ih _ hcl.2 q h2

theorem mergeOverlappingDetections_bound (c : ℚ) (minSize : Nat)
    (detections : List (SRegion × ℚ)) (h : ∀ p ∈ detections, c ≤ p.2) :
    ∀ q ∈ mergeOverlappingDetections minSize detections, c ≤ q.2 := by
  intro q hq
  refine splMergeLoop_bound c minSize detections.length _ ?_ q hq
  intro p hp
  exact h p (List.mem_mergeSort.mp hp)

theorem combined_scores_ge_half (edge noise ela : List SRegion) :
    ∀ (color : List SRegion) (p : SRegion × ℚ),
      p ∈ color.foldr (fun cr acc =>
          let s := corroborate cr ela (corroborate cr noise (corroborate cr edge (1/4, 1)))
          if 2 ≤ s.2 then (cr, s.1) :: acc else acc) [] →
      (1/2 : ℚ) ≤ p.2 := by
  intro color
  induction color with
  | nil => intro p hp; simp at hp
  | cons cr rest ih =>
    intro p hp
    simp only [List.foldr_cons] at hp
    by_cases hguard :
      2 ≤ (corroborate cr ela (corroborate cr noise (corroborate cr edge (1/4, 1)))).2
    · rw [if_pos hguard] at hp
      rcases List.mem_cons.mp hp with h1 | h1
      · have hq : (corroborate cr ela (corroborate cr noise (corroborate cr edge (1/4, 1)))).1 =
            ((corroborate cr ela (corroborate cr noise (corroborate cr edge (1/4, 1)))).2 : ℚ)/4 :=
          corroborate_quarter cr ela _
            (corroborate_quarter cr noise _ (corroborate_quarter cr edge _ (by norm_num)))
        have hcast : (2 : ℚ) ≤
            ((corroborate cr ela (corroborate cr noise (corroborate cr edge (1/4, 1)))).2 : ℚ) := by
          exact_mod_cast hguard
        rw [h1]
        simp only [hq]
        linarith
      · exact ih p h1
    · rw [if_neg hguard] at hp
      exact ih p hp

/-- C2 amended: the copy-move similarity is a clamped Pearson correlation
and always lies in [0,1] (by the Cauchy-Schwarz inequality); the splicing
confidence equals 0.25 times the evidence count (one plus the number of
overlapping corroborating regions, counted with multiplicity), so it is
bounded below by 0.5 but, contrary to the claim, not bounded above by 1. -/
theorem similarity_unit_and_splicing_score_lower_bound :
    (∀ c1 c2 : List ℝ, 0 ≤ calculateSimilarity c1 c2 ∧ calculateSimilarity c1 c2 ≤ 1) ∧
    (∀ (minSize : Nat) (color edge noise ela : List SRegion) (p : SRegion × ℚ),
      p ∈ combineAnalyses minSize color edge noise ela → (1/2 : ℚ) ≤ p.2) := by
  refine ⟨calculateSimilarity_mem_unit, ?_⟩
  intro minSize color edge noise ela p hp
  unfold combineAnalyses at hp
  exact mergeOverlappingDetections_bound (1/2) minSize _
    (fun q hq => combined_scores_ge_half edge noise ela color q hq) p hp

/-- C2 amended witness: the splicing score bound applied at a concrete
input: a single color region corroborated by one coinciding edge region is
emitted with confidence exactly 0.5. -/
theorem similarity_unit_and_splicing_score_lower_bound_witness :
    (({ x := 0, y := 0, width := 16, height := 16 }, (1/2 : ℚ)) ∈
        combineAnalyses 100 [{ x := 0, y := 0, width := 16, height := 16 }]
          [{ x := 0, y := 0, width := 16, height := 16 }] [] []) ∧
    (1/2 : ℚ) ≤ (1/2 : ℚ) := by
  have hmem : ({ x := 0, y := 0, width := 16, height := 16 }, (1/2 : ℚ)) ∈
      combineAnalyses 100 [{ x := 0, y := 0, width := 16, height := 16 }]
        [{ x := 0, y := 0, width := 16, height := 16 }] [] [] := by
    norm_num [combineAnalyses, corroborate, splRegionsOverlap, mergeOverlappingDetections,
      List.mergeSort_singleton, splMergeLoop, splCluster, splSweep]
  exact ⟨hmem,
    similarity_unit_and_splicing_score_lower_bound.2 100
      [{ x := 0, y := 0, width := 16, height := 16 }]
      [{ x := 0, y := 0, width := 16, height := 16 }] [] [] _ hmem⟩

/-- Embeds ElaResult (src/src/lib.rs lines 154-162); the two image fields
are not modelled. -/
structure ElaResultQ where
  max_difference : ℚ
  mean_difference : ℚ
  std_deviation : ℚ
  suspicious_regions : List SRegion

/-- Embeds CopyMoveResult (src/src/lib.rs lines 171-176); the visualization
image is not modelled and the matches field is called matchList because
matches is a Lean keyword. -/
structure CopyMoveResultQ where
  matchList : List MatchPairQ
  confidence : ℚ

/-- Embeds NoiseResult (src/src/lib.rs lines 193-200). -/
structure NoiseResultQ where
  noise_map : GrayImage
  local_variance_map : GrayImage
  inconsistency_score : ℚ
  estimated_noise_level : ℚ
  anomalous_regions : List SRegion

/-- Embeds JpegAnalysisResult (src/src/lib.rs lines 202-209); the map fields
are not modelled. -/
structure JpegAnalysisResultQ where
  quality_estimate : Nat
  ghost_detected : Bool
  double_compression_likelihood : ℚ

/-- Embeds MetadataResult (src/src/lib.rs lines 211-220), reduced to the
suspicious indicators; no claim inspects the other fields. -/
structure MetadataResultQ where
  suspicious_indicators : List String

/-- Embeds FullAnalysisReport (src/src/lib.rs lines 222-230). -/
structure FullAnalysisReportQ where
  ela : ElaResultQ
  copy_move : CopyMoveResultQ
  noise : NoiseResultQ
  jpeg : JpegAnalysisResultQ
  metadata : Option MetadataResultQ
  tampering_ability : ℚ

/-- Embeds ForensicsAnalyzer::calculate_tampering_probability
(src/src/lib.rs lines 117-151). -/
def calculateTamperingProbability (ela : ElaResultQ) (copy_move : CopyMoveResultQ)
    (noise : NoiseResultQ) (jpeg : JpegAnalysisResultQ) : ℚ :=
  let sw0 : ℚ × ℚ := (0, 0)
  let sw1 := if 50 < ela.max_difference then
      (sw0.1 + 3/10 * min (ela.max_difference / 255) 1, sw0.2 + 3/10) else sw0
  let sw2 := if copy_move.matchList ≠ [] then
      (sw1.1 + 4/10 * min ((copy_move.matchList.length : ℚ) / 100) 1, sw1.2 + 4/10) else sw1
  let sw3 := if 3/10 < noise.inconsistency_score then
      (sw2.1 + 2/10 * noise.inconsistency_score, sw2.2 + 2/10) else sw2
  let sw4 := if jpeg.ghost_detected then (sw3.1 + 1/10, sw3.2 + 1/10) else sw3
  if 0 < sw4.2 then sw4.1 / sw4.2 else 0

/-- Embeds ForensicsAnalyzer::full_analysis (src/src/lib.rs lines 98-115).
Each constituent analyzer run is abstracted as its outcome (the runs depend
on the image and on the external JPEG codec); the source applies the ?
operator to the ELA, copy-move, noise and JPEG runs in that order, which the
do-binds reproduce, and applies .ok() to the metadata extraction alone,
which toOption reproduces. -/
def fullAnalysis (ela : Except Err ElaResultQ) (copy_move : Except Err CopyMoveResultQ)
    (noise : Except Err NoiseResultQ) (jpeg : Except Err JpegAnalysisResultQ)
    (metadata : Except Err MetadataResultQ) : Except Err FullAnalysisReportQ := do
  let e ← ela
  let c ← copy_move
  let n ← noise
  let j ← jpeg
  let m := metadata.toOption
  pure { ela := e, copy_move := c, noise := n, jpeg := j, metadata := m,
         tampering_ability := calculateTamperingProbability e c n j }

/-- Embeds TamperingConfig (src/src/detection/tampering.rs lines 14-35). -/
structure TamperingConfigQ where
  detect_copy_move : Bool
  detect_splicing : Bool
  detect_retouching : Bool
  block_size : Nat
  sensitivity : ℚ
  min_confidence : ℚ

/-- Embeds TamperingConfig::default (src/src/detection/tampering.rs lines
24-35). -/
def TamperingConfigQ.default : TamperingConfigQ :=
  { detect_copy_move := true
    detect_splicing := true
    detect_retouching := true
    block_size := 16
    sensitivity := 1/2
    min_confidence := 3/10 }

/-- The copy-move source manipulation built at
src/src/detection/tampering.rs lines 370-383; the numeric interpolation of
the format strings is abstracted with toString. -/
def cmSourceManipulation (mp : MatchPairQ) : DetectedManipulation :=
  { manipulation_type := ManipulationType.copyMove
    region := mp.source
    confidence := mp.similarity
    confidence_level := ConfidenceLevel.fromScore mp.similarity
    description := "Copy-move detected: region copied from (" ++ toString mp.source.x ++
      ", " ++ toString mp.source.y ++ ") to (" ++ toString mp.target.x ++ ", " ++
      toString mp.target.y ++ ")"
    evidence := ["Similarity: " ++ toString (mp.similarity * 100)] }

/-- The copy-move target manipulation built at
src/src/detection/tampering.rs lines 385-392. -/
def cmTargetManipulation (mp : MatchPairQ) : DetectedManipulation :=
  { manipulation_type := ManipulationType.copyMove
    region := mp.target
    confidence := mp.similarity
    confidence_level := ConfidenceLevel.fromScore mp.similarity
    description := "Copy-move target region"
    evidence := [] }

/-- Embeds TamperingDetector::detect (src/src/detection/tampering.rs lines
361-419).  The four constituent runs (CopyMoveDetector::detect on the image,
SplicingDetector::detect, detect_retouching, analyze_double_compression) are
abstracted as their outcomes; the constructor call
CopyMoveDetector::new(block_size, 0.9, 50) and every ? operator of the
source appear as binds in source order, so any constituent error is returned
at once.  The final visualization is not modelled. -/
def tamperingDetect (cfg : TamperingConfigQ)
    (copyMoveRun : CopyMoveDetectorQ → Except Err CopyMoveResultQ)
    (splicingRun : Except Err DetectionResult)
    (retouchingRun : Except Err (List DetectedManipulation))
    (doubleCompressionRun : Except Err (Option DetectedManipulation)) :
    Except Err DetectionResult := do
  let r0 := DetectionResult.new
  let r1 ←
    if cfg.detect_copy_move then do
      let det ← cmNew cfg.block_size (9/10) 50
      let cmr ← copyMoveRun det
      pure (cmr.matchList.foldl (fun r mp =>
        (r.addManipulation (cmSourceManipulation mp)).addManipulation
          (cmTargetManipulation mp)) r0)
    else pure r0
  let r2 ←
    if cfg.detect_splicing then do
      let sr ← splicingRun
      pure (sr.manipulations.foldl (fun r m => r.addManipulation m) r1)
    else pure r1
  let r3 ←
    if cfg.detect_retouching then do
      let ms ← retouchingRun
      pure (ms.foldl (fun r m => r.addManipulation m) r2)
    else pure r2
  let dc ← doubleCompressionRun
  match dc with
  | some m => pure (r3.addManipulation m)
  | none => pure r3

/-- C3 counterexample: the claim says the fusion layer treats an analyzer
error as an absent signal, so full_analysis and the tampering detector still
return a result when the copy-move analyzer alone fails.  At a concrete
input where copy-move fails with ImageTooSmall(32) and every other analyzer
succeeds, both return that error instead. -/
theorem fusion_propagates_single_analyzer_error :
    fullAnalysis
        (Except.ok { max_difference := 0, mean_difference := 0, std_deviation := 0,
                     suspicious_regions := [] })
        (Except.error (Err.imageTooSmall 32))
        (Except.ok { noise_map := { width := 0, height := 0, pix := fun _ _ => 0 },
                     local_variance_map := { width := 0, height := 0, pix := fun _ _ => 0 },
                     inconsistency_score := 0, estimated_noise_level := 0,
                     anomalous_regions := [] })
        (Except.ok { quality_estimate := 95, ghost_detected := false,
                     double_compression_likelihood := 0 })
        (Except.ok { suspicious_indicators := [] }) =
      Except.error (Err.imageTooSmall 32) ∧
    tamperingDetect TamperingConfigQ.default
        (fun _ => Except.error (Err.imageTooSmall 32))
        (Except.ok DetectionResult.new) (Except.ok []) (Except.ok Option.none) =
      Except.error (Err.imageTooSmall 32) := by
  exact ⟨rfl, rfl⟩

/-- C3 amended: the fusion layer does not degrade gracefully: full_analysis
propagates the first error among the ELA, copy-move, noise and JPEG runs (in
that order) and only a metadata extraction failure is treated as an absent
signal; the tampering detector likewise propagates a copy-move failure
immediately. -/
theorem fusion_first_error_semantics :
    (∀ (e : Err) cm n j m, fullAnalysis (Except.error e) cm n j m = Except.error e) ∧
    (∀ a (e : Err) n j m, fullAnalysis (Except.ok a) (Except.error e) n j m = Except.error e) ∧
    (∀ a c (e : Err) j m,
      fullAnalysis (Except.ok a) (Except.ok c) (Except.error e) j m = Except.error e) ∧
    (∀ a c n (e : Err) m,
      fullAnalysis (Except.ok a) (Except.ok c) (Except.ok n) (Except.error e) m =
        Except.error e) ∧
    (∀ a c n j meta,
      (fullAnalysis (Except.ok a) (Except.ok c) (Except.ok n) (Except.ok j) meta).isOk =
        true) ∧
    (∀ (e : Err) spl ret dc,
      tamperingDetect TamperingConfigQ.default (fun _ => Except.error e) spl ret dc =
        Except.error e) := by
  refine ⟨fun e cm n j m => rfl, fun a e n j m => rfl, fun a c e j m => rfl,
    fun a c n e m => rfl, fun a c n j meta => rfl, fun e spl ret dc => rfl⟩

/-- An RGB image: dimensions plus a pixel function returning the three u8
channels. -/
structure RgbImage where
  width : Nat
  height : Nat
  pix : Nat → Nat → Nat × Nat × Nat

/-- Embeds rgb_to_gray (src/src/image_utils.rs lines 6-17): the weighted
luminance truncated to u8 (truncation of a non-negative value is the
floor). -/
def rgbToGray (img : RgbImage) : GrayImage :=
  { width := img.width
    height := img.height
    pix := fun x y =>
      let p := img.pix x y
      ((299/1000 : ℚ) * p.1 + (587/1000 : ℚ) * p.2.1 + (114/1000 : ℚ) * p.2.2).floor.toNat }

/-- The kernel of gaussian_blur_3x3 (src/src/image_utils.rs lines 44-52). -/
def gaussianKernel : Nat → Nat → ℚ
  | 0, 0 => 1/16
  | 0, 1 => 2/16
  | 0, 2 => 1/16
  | 1, 0 => 2/16
  | 1, 1 => 4/16
  | 1, 2 => 2/16
  | 2, 0 => 1/16
  | 2, 1 => 2/16
  | 2, 2 => 1/16
  | _, _ => 0

/-- Embeds convolve_gray (src/src/image_utils.rs lines 54-74): interior
pixels get the clamped kernel sum, border pixels keep the zero the freshly
allocated output image starts with. -/
def convolveGray (img : GrayImage) (kernel : Nat → Nat → ℚ) : GrayImage :=
  { width := img.width
    height := img.height
    pix := fun x y =>
      if 1 ≤ x ∧ x + 1 < img.width ∧ 1 ≤ y ∧ y + 1 < img.height then
        let s : ℚ := ((List.range 3).flatMap (fun ky =>
          (List.range 3).map (fun kx =>
            (img.pix (x + kx - 1) (y + ky - 1) : ℚ) * kernel ky kx))).sum
        (min (max s 0) 255).floor.toNat
      else 0 }

/-- Embeds gaussian_blur_3x3 (src/src/image_utils.rs lines 44-52). -/
def gaussianBlur3x3 (img : GrayImage) : GrayImage :=
  convolveGray img gaussianKernel

/-- Embeds NoiseAnalyzer::extract_noise (src/src/analysis/noise.rs lines
47-62): the absolute difference of the image and its blur. -/
def extractNoise (gray : GrayImage) : GrayImage :=
  let blurred := gaussianBlur3x3 gray
  { width := gray.width
    height := gray.height
    pix := fun x y => Int.natAbs ((gray.pix x y : ℤ) - (blurred.pix x y : ℤ)) }

/-- The floor of the f64 square root of a rational: exact at the magnitudes
appearing here, and 0 on negative input just as the NaN square root of a
negative f64 casts to 0. -/
def ratSqrtFloor (q : ℚ) : Nat := Nat.sqrt q.floor.toNat

/-- Embeds NoiseAnalyzer::calculate_local_variance
(src/src/analysis/noise.rs lines 64-99): per pixel, the clamped standard
deviation over the block window around it, clipped at the image boundary;
pixels whose window is empty keep the zero of the fresh output image. -/
def calcLocalVariance (block_size : Nat) (gray : GrayImage) : GrayImage :=
  { width := gray.width
    height := gray.height
    pix := fun x y =>
      let half := block_size / 2
      let pts := (List.range block_size).flatMap (fun dy =>
        (List.range block_size).filterMap (fun dx =>
          let px := x - half + dx
          let py := y - half + dy
          if px < gray.width ∧ py < gray.height then some (gray.pix px py) else none))
      if pts.length ≠ 0 then
        let count : ℚ := (pts.length : ℚ)
        let mean := ((pts.map (fun v => (v : ℚ))).sum) / count
        let variance := ((pts.map (fun v => ((v : ℚ)) * ((v : ℚ)))).sum) / count - mean * mean
        min (ratSqrtFloor variance) 255
      else 0 }

/-- The median selection of NoiseAnalyzer::estimate_noise_level on an
already sorted list.  On the empty list the source would index out of
bounds and panic; the getD default 0 here stands for that unreachable case,
and every theorem below stays on non-empty images. -/
def medianOfSorted (l : List ℚ) : ℚ :=
  if l.length % 2 = 0 then (l.getD (l.length / 2 - 1) 0 + l.getD (l.length / 2) 0) / 2
  else l.getD (l.length / 2) 0

/-- The pixels of a grayscale image in row-major order, as the pixels
iterator of the image crate yields them. -/
def pixelList (g : GrayImage) : List Nat :=
  (List.range g.height).flatMap (fun y => (List.range g.width).map (fun x => g.pix x y))

/-- Embeds NoiseAnalyzer::estimate_noise_level (src/src/analysis/noise.rs
lines 101-125): 1.4826 times the median absolute deviation of the noise
map. -/
def estimateNoiseLevel (noise_map : GrayImage) : ℚ :=
  let values := ((pixelList noise_map).map (fun v => (v : ℚ))).mergeSort
    (fun a b => decide (a ≤ b))
  let median := medianOfSorted values
  let deviations := (values.map (fun v => |v - median|)).mergeSort
    (fun a b => decide (a ≤ b))
  let mad := medianOfSorted deviations
  mad * (14826/10000)

/-- Embeds the configuration state of NoiseAnalyzer
(src/src/analysis/noise.rs lines 9-12). -/
structure NoiseAnalyzerQ where
  block_size : Nat
  sensitivity : ℚ

/-- Embeds NoiseAnalyzer::new (src/src/analysis/noise.rs lines 15-20). -/
def NoiseAnalyzerQ.new : NoiseAnalyzerQ :=
  { block_size := 16, sensitivity := 2 }

/-- Embeds NoiseAnalyzer::analyze (src/src/analysis/noise.rs lines 27-45).
The body performs no size check and has no error path at all: it always
returns Ok. -/
def noiseAnalyze (a : NoiseAnalyzerQ) (image : RgbImage) : Except Err NoiseResultQ :=
  let gray := rgbToGray image
  let noiseMap := extractNoise gray
  let lvm := calcLocalVariance a.block_size gray
  let lvl := estimateNoiseLevel noiseMap
  let res := noiseFindAnomalies a.block_size a.sensitivity lvm lvl
  Except.ok
    { noise_map := noiseMap
      local_variance_map := lvm
      inconsistency_score := res.2
      estimated_noise_level := lvl
      anomalous_regions := res.1 }

/-- Embeds BlockFeature (src/src/analysis/copy_move.rs lines 17-23). -/
structure BlockFeature where
  x : Nat
  y : Nat
  dct_coeffs : List ℚ
  hash : Nat
deriving DecidableEq, Repr

/-- Append an index to the bucket of a key in an association list, creating
the bucket if absent; stands for hash_groups.entry(h).or_default().push(i)
at src/src/analysis/copy_move.rs line 151. -/
def addToGroup (k : Nat) (f : BlockFeature) :
    List (Nat × List BlockFeature) → List (Nat × List BlockFeature)
  | [] => [(k, [f])]
  | (k2, fs) :: rest =>
    if k2 = k then (k2, fs ++ [f]) :: rest else (k2, fs) :: addToGroup k f rest

/-- Embeds the grouping loop of CopyMoveDetector::find_matches
(src/src/analysis/copy_move.rs lines 146-153): every feature joins the
buckets of its hash xor 0..4.  The source iterates the buckets of a std
HashMap, whose order is arbitrary (and randomly seeded); the association
list fixes one order, and the properties proved below hold for every
candidate regardless of bucket order. -/
def hashGroups (features : List BlockFeature) : List (Nat × List BlockFeature) :=
  features.foldl (fun m f =>
    (List.range 4).foldl (fun m off => addToGroup (f.hash ^^^ off) f m) m) []

/-- All ordered pairs (earlier, later) of a list, as the nested i < j index
loops at src/src/analysis/copy_move.rs lines 160-161 enumerate them. -/
def pairsOf : List BlockFeature → List (BlockFeature × BlockFeature)
  | [] => []
  | f :: rest => rest.map (fun g => (f, g)) ++ pairsOf rest

/-- The absolute difference of two Nat coordinates, as the source computes
(a as i32 - b as i32).abs(). -/
def natDist (a b : Nat) : Nat := ((a : ℤ) - (b : ℤ)).natAbs

/-- The body of the pair loop of CopyMoveDetector::find_matches
(src/src/analysis/copy_move.rs lines 162-191): reject the pair when the
truncated Euclidean distance of the block corners is below min_distance,
otherwise keep it as a MatchPair when the similarity reaches the threshold.
The Pearson similarity (an f64 computation with a square root) is abstracted
as the function simf. -/
def cmPairCandidate (det : CopyMoveDetectorQ) (simf : List ℚ → List ℚ → ℚ)
    (f1 f2 : BlockFeature) : Option MatchPairQ :=
  if Nat.sqrt (natDist f1.x f2.x * natDist f1.x f2.x +
      natDist f1.y f2.y * natDist f1.y f2.y) < det.min_distance then
    Option.none
  else if det.similarity_threshold ≤ simf f1.dct_coeffs f2.dct_coeffs then
    some { source := { x := f1.x, y := f1.y, width := det.block_size,
                       height := det.block_size }
           target := { x := f2.x, y := f2.y, width := det.block_size,
                       height := det.block_size }
           similarity := simf f1.dct_coeffs f2.dct_coeffs }
  else Option.none

/-- The candidate matches collected by CopyMoveDetector::find_matches
before filtering (src/src/analysis/copy_move.rs lines 143-194). -/
def cmCandidateMatches (det : CopyMoveDetectorQ) (simf : List ℚ → List ℚ → ℚ)
    (features : List BlockFeature) : List MatchPairQ :=
  (hashGroups features).flatMap (fun g =>
    (pairsOf g.2).filterMap (fun p => cmPairCandidate det simf p.1 p.2))

/-- Embeds CopyMoveDetector::find_matches (src/src/analysis/copy_move.rs
lines 143-197): collect candidates, then filter overlaps. -/
def cmFindMatches (det : CopyMoveDetectorQ) (simf : List ℚ → List ℚ → ℚ)
    (features : List BlockFeature) : List MatchPairQ :=
  cmFilterMatches (cmCandidateMatches det simf features)

/-- Embeds CopyMoveDetector::detect (src/src/analysis/copy_move.rs lines
41-67): grayscale conversion, the ImageTooSmall guard against twice the
block size, feature extraction, matching, and the mean-similarity
confidence.  Feature extraction (FFT magnitudes of each block) is abstracted
as the function extractFeatures; the source version of it returns Ok
unconditionally, so no error case is lost.  The visualization is not
modelled. -/
def cmDetect (extractFeatures : GrayImage → List BlockFeature)
    (simf : List ℚ → List ℚ → ℚ) (det : CopyMoveDetectorQ) (image : RgbImage) :
    Except Err CopyMoveResultQ :=
  let gray := rgbToGray image
  if gray.width < det.block_size * 2 ∨ gray.height < det.block_size * 2 then
    Except.error (Err.imageTooSmall (det.block_size * 2))
  else
    let ms := cmFindMatches det simf (extractFeatures gray)
    let confidence : ℚ :=
      if ms = [] then 0 else ((ms.map (fun m => m.similarity)).sum) / (ms.length : ℚ)
    Except.ok { matchList := ms, confidence := confidence }

/-- C7 counterexample: the claim says every analyzer, the noise analyzer
included, fails fast with ImageTooSmall below its minimum (2 times the block
size, 32 for the default analyzer); the noise analyzer has no size check and
succeeds on a 4x4 image. -/
theorem noise_analyzer_accepts_small_images :
    (noiseAnalyze NoiseAnalyzerQ.new
        { width := 4, height := 4, pix := fun _ _ => (0, 0, 0) }).isOk = true ∧
    (4 : Nat) < 2 * 16 := by
  exact ⟨rfl, by norm_num⟩

/-- C7 amended: the copy-move detector fails fast with
ImageTooSmall(2 * block_size) whenever either dimension is below twice the
block size; the noise analyzer, contrary to the claim, performs no size
check at all and returns a result on every (non-empty) image. -/
theorem analyzers_size_check_semantics :
    (∀ (extractFeatures : GrayImage → List BlockFeature)
       (simf : List ℚ → List ℚ → ℚ) (det : CopyMoveDetectorQ) (image : RgbImage),
      image.width < det.block_size * 2 ∨ image.height < det.block_size * 2 →
      cmDetect extractFeatures simf det image =
        Except.error (Err.imageTooSmall (det.block_size * 2))) ∧
    (∀ (a : NoiseAnalyzerQ) (image : RgbImage),
      0 < image.width → 0 < image.height → (noiseAnalyze a image).isOk = true) := by
  constructor
  · intro extractFeatures simf det image h
    unfold cmDetect
    exact if_pos h
  · intro a image _ _
    rfl

/-- C7 amended witness: the copy-move guard and the noise analyzer at the
concrete 4x4 black image with the default configurations. -/
theorem analyzers_size_check_semantics_witness :
    ((4 : Nat) < 16 * 2 ∨ (4 : Nat) < 16 * 2) ∧
    cmDetect (fun _ => []) (fun _ _ => 0)
        { block_size := 16, similarity_threshold := 19/20, min_distance := 50,
          variance_threshold := 100 }
        { width := 4, height := 4, pix := fun _ _ => (0, 0, 0) } =
      Except.error (Err.imageTooSmall 32) ∧
    ((0 : Nat) < 4 ∧ (0 : Nat) < 4) ∧
    (noiseAnalyze NoiseAnalyzerQ.new
        { width := 4, height := 4, pix := fun _ _ => (0, 0, 0) }).isOk = true := by
  refine ⟨Or.inl (by norm_num), ?_, ⟨by norm_num, by norm_num⟩, ?_⟩
  · exact analyzers_size_check_semantics.1 (fun _ => []) (fun _ _ => 0)
      { block_size := 16, similarity_threshold := 19/20, min_distance := 50,
        variance_threshold := 100 }
      { width := 4, height := 4, pix := fun _ _ => (0, 0, 0) } (Or.inl (by norm_num))
  · exact analyzers_size_check_semantics.2 NoiseAnalyzerQ.new
      { width := 4, height := 4, pix := fun _ _ => (0, 0, 0) } (by norm_num) (by norm_num)

theorem cmFilter_greedy_subset :
    ∀ (l acc : List MatchPairQ) (m : MatchPairQ),
      m ∈ l.foldl (fun filtered m =>
        if filtered.any (fun e => cmMatchOverlaps m e) then filtered
        else filtered ++ [m]) acc → m ∈ acc ∨ m ∈ l := by
  intro l
  induction l with
  | nil => intro acc m h; exact Or.inl h
  | cons x rest ih =>
    intro acc m h
    simp only [List.foldl_cons] at h
    rcases ih _ m h with h1 | h1
    · by_cases hc : acc.any (fun e => cmMatchOverlaps x e)
      · rw [if_pos hc] at h1
        exact Or.inl h1
      · rw [if_neg hc] at h1
        rcases List.mem_append.mp h1 with h2 | h2
        · exact Or.inl h2
        · rcases List.mem_singleton.mp h2 with rfl
          exact Or.inr (List.mem_cons_self _ _)
    · exact Or.inr (List.mem_cons_of_mem _ h1)

theorem mem_cmFilterMatches (ms : List MatchPairQ) (m : MatchPairQ)
    (h : m ∈ cmFilterMatches ms) : m ∈ ms := by
  unfold cmFilterMatches at h
  rcases cmFilter_greedy_subset _ [] m h with h1 | h1
  · simp at h1
  · exact List.mem_mergeSort.mp h1

theorem cmPairCandidate_spec (det : CopyMoveDetectorQ) (simf : List ℚ → List ℚ → ℚ)
    (f1 f2 : BlockFeature) (m : MatchPairQ) (h : cmPairCandidate det simf f1 f2 = some m) :
    m.source = { x := f1.x, y := f1.y, width := det.block_size, height := det.block_size } ∧
    m.target = { x := f2.x, y := f2.y, width := det.block_size, height := det.block_size } ∧
    det.min_distance * det.min_distance ≤
      natDist f1.x f2.x * natDist f1.x f2.x + natDist f1.y f2.y * natDist f1.y f2.y := by
  unfold cmPairCandidate at h
  by_cases hd : Nat.sqrt (natDist f1.x f2.x * natDist f1.x f2.x +
      natDist f1.y f2.y * natDist f1.y f2.y) < det.min_distance
  · rw [if_pos hd] at h
    cases h
  · rw [if_neg hd] at h
    by_cases hs : det.similarity_threshold ≤ simf f1.dct_coeffs f2.dct_coeffs
    · rw [if_pos hs] at h
      injection h with h
      subst h
      refine ⟨rfl, rfl, ?_⟩
      exact Nat.le_sqrt.mp (Nat.le_of_not_lt hd)
    · rw [if_neg hs] at h
      cases h

theorem mem_cmFindMatches_spec (det : CopyMoveDetectorQ) (simf : List ℚ → List ℚ → ℚ)
    (features : List BlockFeature) (m : MatchPairQ) (h : m ∈ cmFindMatches det simf features) :
    m.source.width = det.block_size ∧ m.source.height = det.block_size ∧
    m.target.width = det.block_size ∧ m.target.height = det.block_size ∧
    det.min_distance * det.min_distance ≤
      natDist m.source.x m.target.x * natDist m.source.x m.target.x +
      natDist m.source.y m.target.y * natDist m.source.y m.target.y := by
  unfold cmFindMatches at h
  have hc : m ∈ cmCandidateMatches det simf features := mem_cmFilterMatches _ _ h
  unfold cmCandidateMatches at hc
  rcases List.mem_flatMap.mp hc with ⟨g, _, hmem⟩
  rcases List.mem_filterMap.mp hmem with ⟨p, _, heq⟩
  obtain ⟨hsrc, htgt, hdist⟩ := cmPairCandidate_spec det simf p.1 p.2 m heq
  rw [hsrc, htgt]
  exact ⟨rfl, rfl, rfl, rfl, hdist⟩

theorem natDist_cast_real (a b : Nat) : ((natDist a b : ℕ) : ℝ) = |(a : ℝ) - (b : ℝ)| := by
  unfold natDist
  rw [Int.cast_natAbs]
  push_cast
  ring_nf

/-- C8: every MatchPair returned by the copy-move detector joins two regions
of identical width and height, and the Euclidean distance between their
centers is at least min_distance.  The source compares the truncated
distance between the top-left corners with min_distance; truncation can only
lower the value, and with identical dimensions the center offset equals the
corner offset, so the real center distance is at least min_distance as the
claim states. -/
theorem copy_move_min_distance (extractFeatures : GrayImage → List BlockFeature)
    (simf : List ℚ → List ℚ → ℚ) (det : CopyMoveDetectorQ) (image : RgbImage)
    (result : CopyMoveResultQ) (m : MatchPairQ)
    (hres : cmDetect extractFeatures simf det image = Except.ok result)
    (hm : m ∈ result.matchList) :
    m.source.width = m.target.width ∧ m.source.height = m.target.height ∧
    (det.min_distance : ℝ) ≤
      Real.sqrt (((m.source.x : ℝ) + (m.source.width : ℝ) / 2 -
          ((m.target.x : ℝ) + (m.target.width : ℝ) / 2)) ^ 2 +
        ((m.source.y : ℝ) + (m.source.height : ℝ) / 2 -
          ((m.target.y : ℝ) + (m.target.height : ℝ) / 2)) ^ 2) := by
  have hms : result.matchList = cmFindMatches det simf (extractFeatures (rgbToGray image)) := by
    unfold cmDetect at hres
    by_cases hg : (rgbToGray image).width < det.block_size * 2 ∨
        (rgbToGray image).height < det.block_size * 2
    · rw [if_pos hg] at hres
      cases hres
    · rw [if_neg hg] at hres
      injection hres with hres
      rw [← hres]
  rw [hms] at hm
  obtain ⟨h1, h2, h3, h4, hdist⟩ := mem_cmFindMatches_spec det simf _ m hm
  have hw : m.source.width = m.target.width := by rw [h1, h3]
  have hh : m.source.height = m.target.height := by rw [h2, h4]
  refine ⟨hw, hh, ?_⟩
  have hx : (m.source.x : ℝ) + (m.source.width : ℝ) / 2 -
      ((m.target.x : ℝ) + (m.target.width : ℝ) / 2) = (m.source.x : ℝ) - (m.target.x : ℝ) := by
    rw [hw]
    ring
  have hy : (m.source.y : ℝ) + (m.source.height : ℝ) / 2 -
      ((m.target.y : ℝ) + (m.target.height : ℝ) / 2) = (m.source.y : ℝ) - (m.target.y : ℝ) := by
    rw [hh]
    ring
  rw [hx, hy]
  refine (Real.le_sqrt (Nat.cast_nonneg _) (by positivity)).mpr ?_
  rw [← sq_abs ((m.source.x : ℝ) - (m.target.x : ℝ)),
    ← sq_abs ((m.source.y : ℝ) - (m.target.y : ℝ)),
    ← natDist_cast_real, ← natDist_cast_real, pow_two, pow_two, pow_two]
  exact_mod_cast hdist

/-- The concrete detector configuration of the C8 witness run. -/
def cmWitnessDet : CopyMoveDetectorQ :=
  { block_size := 16, similarity_threshold := 1, min_distance := 1, variance_threshold := 100 }

/-- The concrete feature list of the C8 witness run: two identical-hash
features one pixel apart. -/
def cmWitnessFeatures : List BlockFeature :=
  [{ x := 0, y := 0, dct_coeffs := [], hash := 0 },
   { x := 1, y := 0, dct_coeffs := [], hash := 0 }]

/-- The match the C8 witness run keeps. -/
def cmWitnessMatch : MatchPairQ :=
  { source := { x := 0, y := 0, width := 16, height := 16 }
    target := { x := 1, y := 0, width := 16, height := 16 }
    similarity := 1 }

/-- The concrete 64x64 black image of the C8 witness run. -/
def cmWitnessImage : RgbImage :=
  { width := 64, height := 64, pix := fun _ _ => (0, 0, 0) }

/-- C8 witness: the minimum-distance theorem applied at a concrete run: two
identical-hash features one pixel apart with threshold 1 and min_distance 1
yield one kept match whose center distance is at least 1. -/
theorem copy_move_min_distance_witness :
    cmDetect (fun _ => cmWitnessFeatures) (fun _ _ => 1) cmWitnessDet cmWitnessImage =
      Except.ok { matchList := [cmWitnessMatch], confidence := 1 } ∧
    cmWitnessMatch ∈
      ({ matchList := [cmWitnessMatch], confidence := 1 } : CopyMoveResultQ).matchList ∧
    ((cmWitnessDet.min_distance : ℕ) : ℝ) ≤
      Real.sqrt (((cmWitnessMatch.source.x : ℝ) + (cmWitnessMatch.source.width : ℝ) / 2 -
          ((cmWitnessMatch.target.x : ℝ) + (cmWitnessMatch.target.width : ℝ) / 2)) ^ 2 +
        ((cmWitnessMatch.source.y : ℝ) + (cmWitnessMatch.source.height : ℝ) / 2 -
          ((cmWitnessMatch.target.y : ℝ) + (cmWitnessMatch.target.height : ℝ) / 2)) ^ 2) := by
  have hcand : cmCandidateMatches cmWitnessDet (fun _ _ => 1) cmWitnessFeatures =
      [cmWitnessMatch, cmWitnessMatch, cmWitnessMatch, cmWitnessMatch] := by
    rfl
  have hfind : cmFindMatches cmWitnessDet (fun _ _ => 1) cmWitnessFeatures =
      [cmWitnessMatch] := by
    unfold cmFindMatches
    rw [hcand]
    unfold cmFilterMatches
    rw [List.mergeSort_of_sorted (by simp [List.pairwise_cons])]
    rfl
  have step : cmDetect (fun _ => cmWitnessFeatures) (fun _ _ => 1) cmWitnessDet cmWitnessImage =
      Except.ok { matchList := cmFindMatches cmWitnessDet (fun _ _ => 1) cmWitnessFeatures,
                  confidence :=
                    if cmFindMatches cmWitnessDet (fun _ _ => 1) cmWitnessFeatures = [] then 0
                    else ((cmFindMatches cmWitnessDet (fun _ _ => 1) cmWitnessFeatures).map
                        (fun m => m.similarity)).sum /
                      ((cmFindMatches cmWitnessDet (fun _ _ => 1) cmWitnessFeatures).length :
                        ℚ) } := by
    rfl
  rw [hfind] at step
  have hdet : cmDetect (fun _ => cmWitnessFeatures) (fun _ _ => 1) cmWitnessDet cmWitnessImage =
      Except.ok { matchList := [cmWitnessMatch], confidence := 1 } := by
    rw [step]
    norm_num [cmWitnessMatch]
  refine ⟨hdet, List.mem_singleton.mpr rfl, ?_⟩
  exact (copy_move_min_distance _ _ _ _ _ _ hdet (List.mem_singleton.mpr rfl)).2.2
